import Mathlib

/-!
Verification of the flights query codec and builder.

Shallow embedding of the repository's wire codec (`src/protos/flights.rs`:
messages `Airport`, `FlightData` (FlightLeg), `Info` (SearchQuery/Tfs) and the
enumerations `Seat`, `Trip`, `Passenger`) and of the query builder
(`src/tfs.rs`: `make_tfs`, `Tfs::base64`).

Bytes are modelled as `Nat` (values < 256 in well-formed data); Rust strings
are modelled as their UTF-8 byte lists (`RStr`), with validity expressed by
the `validUtf8` predicate.  The wire primitives (`write_varint`,
`write_string`, length-delimited slices, unknown-field skipping) live in the
`quick_protobuf` dependency; they are modelled from the spec's wire grammar
(§4.1): little-endian base-128 varints, minimal length; length-delimited
records carry a varint byte length; unknown fields are skipped according to
the wire type actually present (varint or length-delimited).
-/

set_option maxHeartbeats 1000000

namespace Flights


/-- A Rust `String` / `Cow<str>`, modelled as its UTF-8 byte list. -/
abbrev RStr := List Nat

/-- `enum Seat` from `src/protos/flights.rs`. -/
inductive Seat
  | UNKNOWN_SEAT
  | ECONOMY
  | PREMIUM_ECONOMY
  | BUSINESS
  | FIRST
deriving DecidableEq, Repr

/-- The discriminant of a `Seat` (`*&self.seat as i32`, values 0..4). -/
def Seat.toNat : Seat → Nat
  | .UNKNOWN_SEAT => 0
  | .ECONOMY => 1
  | .PREMIUM_ECONOMY => 2
  | .BUSINESS => 3
  | .FIRST => 4

/-- `impl From<i32> for Seat`; out-of-range values give `Self::default()`,
which is `Seat::UNKNOWN_SEAT`. -/
def Seat.fromI32 (i : Int) : Seat :=
  if i = 0 then .UNKNOWN_SEAT
  else if i = 1 then .ECONOMY
  else if i = 2 then .PREMIUM_ECONOMY
  else if i = 3 then .BUSINESS
  else if i = 4 then .FIRST
  else .UNKNOWN_SEAT

/-- `enum Trip` from `src/protos/flights.rs`. -/
inductive Trip
  | UNKNOWN_TRIP
  | ROUND_TRIP
  | ONE_WAY
  | MULTI_CITY
deriving DecidableEq, Repr

/-- The discriminant of a `Trip` (values 0..3). -/
def Trip.toNat : Trip → Nat
  | .UNKNOWN_TRIP => 0
  | .ROUND_TRIP => 1
  | .ONE_WAY => 2
  | .MULTI_CITY => 3

/-- `impl From<i32> for Trip`; default is `Trip::UNKNOWN_TRIP`. -/
def Trip.fromI32 (i : Int) : Trip :=
  if i = 0 then .UNKNOWN_TRIP
  else if i = 1 then .ROUND_TRIP
  else if i = 2 then .ONE_WAY
  else if i = 3 then .MULTI_CITY
  else .UNKNOWN_TRIP

/-- `enum Passenger` from `src/protos/flights.rs`. -/
inductive Passenger
  | UNKNOWN_PASSENGER
  | ADULT
  | CHILD
  | INFANT_IN_SEAT
  | INFANT_ON_LAP
deriving DecidableEq, Repr

/-- The discriminant of a `Passenger` (values 0..4). -/
def Passenger.toNat : Passenger → Nat
  | .UNKNOWN_PASSENGER => 0
  | .ADULT => 1
  | .CHILD => 2
  | .INFANT_IN_SEAT => 3
  | .INFANT_ON_LAP => 4

/-- `impl From<i32> for Passenger`; default is `Passenger::UNKNOWN_PASSENGER`. -/
def Passenger.fromI32 (i : Int) : Passenger :=
  if i = 0 then .UNKNOWN_PASSENGER
  else if i = 1 then .ADULT
  else if i = 2 then .CHILD
  else if i = 3 then .INFANT_IN_SEAT
  else if i = 4 then .INFANT_ON_LAP
  else .UNKNOWN_PASSENGER

/-- `struct Airport` (the other schema version names the field `name`). -/
structure Airport where
  airport : RStr
deriving DecidableEq, Repr

/-- Rust `Airport::default()`: empty string. -/
def Airport.default : Airport := ⟨[]⟩

/-- `struct FlightData` (the spec's FlightLeg; the other schema version names
the airport fields `from`/`to`). `max_stops` is an `i32`. -/
structure FlightData where
  date : RStr
  from_flight : Option Airport
  to_flight : Option Airport
  max_stops : Int
deriving DecidableEq, Repr

/-- Rust `FlightData::default()`. -/
def FlightData.default : FlightData := ⟨[], none, none, 0⟩

/-- `struct Info` (the spec's SearchQuery; the other schema version names it
`Tfs`). -/
structure Info where
  data : List FlightData
  seat : Seat
  passengers : List Passenger
  trip : Trip
deriving DecidableEq, Repr

/-- Rust `Info::default()`. -/
def Info.default : Info := ⟨[], .UNKNOWN_SEAT, [], .UNKNOWN_TRIP⟩

/-! ## Varints

Modelled from the spec: `quick_protobuf::Writer::write_varint` /
`BytesReader::read_varint64` are dependency code not under `src/`; the spec
(§4.1) fixes them as little-endian base-128 with minimal length.  A fuel
parameter keeps the recursion structural (the fuel `n + 1` always suffices
because the value shrinks by a factor of 128 each step). -/

def writeVarintAux : Nat → Nat → List Nat
  | 0, _ => []
  | fuel + 1, n => if n < 128 then [n] else (n % 128 + 128) :: writeVarintAux fuel (n / 128)

/-- The minimal base-128 little-endian encoding of `n`. -/
def writeVarint (n : Nat) : List Nat := writeVarintAux (n + 1) n

theorem writeVarintAux_fuel (f1 : Nat) : ∀ f2 n, n < f1 → n < f2 →
    writeVarintAux f1 n = writeVarintAux f2 n := by
  induction f1 with
  | zero => intro f2 n h1 _; omega
  | succ f ih =>
    intro f2 n h1 h2
    match f2, h2 with
    | f2 + 1, _ =>
      simp only [writeVarintAux]
      by_cases h : n < 128
      · simp [h]
      · simp only [h, if_false]
        have : n / 128 < f := by omega
        have : n / 128 < f2 := by omega
        rw [ih f2 (n / 128)] <;> omega

/-- The defining recursion of `writeVarint`. -/
theorem writeVarint_eq (n : Nat) :
    writeVarint n = if n < 128 then [n] else (n % 128 + 128) :: writeVarint (n / 128) := by
  unfold writeVarint
  conv_lhs => rw [writeVarintAux]
  by_cases h : n < 128
  · simp [h]
  · simp only [h, if_false]
    rw [writeVarintAux_fuel n (n / 128 + 1) (n / 128) (by omega) (by omega)]

theorem writeVarint_small {n : Nat} (h : n < 128) : writeVarint n = [n] := by
  rw [writeVarint_eq]; simp [h]

theorem writeVarint_ne_nil (n : Nat) : writeVarint n ≠ [] := by
  rw [writeVarint_eq]
  by_cases h : n < 128 <;> simp [h]

theorem writeVarint_length_pos (n : Nat) : 0 < (writeVarint n).length := by
  cases h : writeVarint n with
  | nil => exact absurd h (writeVarint_ne_nil n)
  | cons a l => simp

/-- `sizeof_varint` from `quick_protobuf::sizeofs`: the byte count of the
minimal varint encoding. -/
def sizeofVarint (n : Nat) : Nat := (writeVarint n).length

/-- `sizeof_len`: a length-delimited payload of `len` bytes costs the varint
for `len` plus the payload itself. -/
def sizeofLen (len : Nat) : Nat := sizeofVarint len + len

/-- `i as u64` for `i : i32` (sign extension), as used by
`write_int32`/`write_enum`. -/
def u64OfI32 (i : Int) : Nat := (i % (2 ^ 64 : Int)).toNat

/-- `v as i32` for a decoded varint `v : u64`, as used by `read_int32`:
truncate to the low 32 bits, interpreted as two's complement. -/
def i32OfU64 (n : Nat) : Int :=
  let m : Nat := n % 2 ^ 32
  if m < 2 ^ 31 then (m : Int) else (m : Int) - 2 ^ 32

/-! ## Sizes (`get_size` from `src/protos/flights.rs`) -/

/-- `Airport::get_size`. -/
def Airport.size (a : Airport) : Nat :=
  if a.airport = [] then 0 else 1 + sizeofLen a.airport.length

/-- `FlightData::get_size`. -/
def FlightData.size (fd : FlightData) : Nat :=
  (if fd.date = [] then 0 else 1 + sizeofLen fd.date.length)
  + (match fd.from_flight with | none => 0 | some m => 1 + sizeofLen m.size)
  + (match fd.to_flight with | none => 0 | some m => 1 + sizeofLen m.size)
  + (if fd.max_stops = 0 then 0 else 1 + sizeofVarint (u64OfI32 fd.max_stops))

/-- `Info::get_size` (note the 2-byte tag for `trip`, field 19). -/
def Info.size (q : Info) : Nat :=
  (q.data.map (fun s => 1 + sizeofLen s.size)).sum
  + (if q.seat = .UNKNOWN_SEAT then 0 else 1 + sizeofVarint q.seat.toNat)
  + (if q.passengers = [] then 0
     else 1 + sizeofLen ((q.passengers.map (fun s => sizeofVarint s.toNat)).sum))
  + (if q.trip = .UNKNOWN_TRIP then 0 else 2 + sizeofVarint q.trip.toNat)

/-! ## Encoder (`write_message` from `src/protos/flights.rs`)

`w.write_with_tag(tag, f)` writes the varint of the tag and then the field
payload; `write_string` writes a varint length then the raw bytes;
`Writer::write_message` (nested) writes a varint of `get_size` then the
nested message; `write_packed_with_tag` writes nothing for an empty slice,
else one tag, the varint of the summed element sizes, and the concatenated
element varints.  Each `write_message` below keeps the source's field order
and elision conditions. -/

/-- `Airport::write_message`: field `airport`, tag 18, omitted when empty. -/
def encodeAirport (a : Airport) : List Nat :=
  if a.airport = [] then []
  else writeVarint 18 ++ writeVarint a.airport.length ++ a.airport

/-- `FlightData` field `date` (tag 18, omitted when empty). -/
def encodeDateField (d : RStr) : List Nat :=
  if d = [] then [] else writeVarint 18 ++ writeVarint d.length ++ d

/-- `FlightData` field `from_flight` (tag 106, nested, omitted when `None`). -/
def encodeFromField : Option Airport → List Nat
  | none => []
  | some s => writeVarint 106 ++ writeVarint s.size ++ encodeAirport s

/-- `FlightData` field `to_flight` (tag 114, nested, omitted when `None`). -/
def encodeToField : Option Airport → List Nat
  | none => []
  | some s => writeVarint 114 ++ writeVarint s.size ++ encodeAirport s

/-- `FlightData` field `max_stops` (tag 40, varint, omitted when 0). -/
def encodeStopsField (i : Int) : List Nat :=
  if i = 0 then [] else writeVarint 40 ++ writeVarint (u64OfI32 i)

/-- `FlightData::write_message`. -/
def encodeFlightData (fd : FlightData) : List Nat :=
  encodeDateField fd.date
  ++ encodeFromField fd.from_flight
  ++ encodeToField fd.to_flight
  ++ encodeStopsField fd.max_stops

/-- One repeated `data` record of `Info` (tag 26, nested). -/
def encodeLegField (fd : FlightData) : List Nat :=
  writeVarint 26 ++ writeVarint fd.size ++ encodeFlightData fd

/-- `Info` field `seat` (tag 72, varint enum, omitted at default). -/
def encodeSeatField (s : Seat) : List Nat :=
  if s = .UNKNOWN_SEAT then [] else writeVarint 72 ++ writeVarint s.toNat

/-- `Info` field `passengers` (tag 66, packed varints;
`write_packed_with_tag` writes nothing for an empty slice). -/
def encodePassengersField (ps : List Passenger) : List Nat :=
  if ps = [] then []
  else writeVarint 66 ++ writeVarint ((ps.map (fun s => sizeofVarint s.toNat)).sum)
    ++ (ps.map (fun p => writeVarint p.toNat)).flatten

/-- `Info` field `trip` (tag 152, varint enum, omitted at default). -/
def encodeTripField (t : Trip) : List Nat :=
  if t = .UNKNOWN_TRIP then [] else writeVarint 152 ++ writeVarint t.toNat

/-- `Info::write_message`: one record per leg in order, then seat,
passengers, trip. -/
def encodeInfo (q : Info) : List Nat :=
  (q.data.map encodeLegField).flatten
  ++ encodeSeatField q.seat
  ++ encodePassengersField q.passengers
  ++ encodeTripField q.trip

/-! ## UTF-8 validity

Modelled from the spec: Rust's `String`/`str` guarantee, and the decoder's
"byte sequence claimed as UTF-8 text is not valid UTF-8" error condition.
This is the standard RFC 3629 byte-level grammar (no overlong forms, no
surrogates, at most U+10FFFF). -/

/-- A UTF-8 continuation byte: `0x80..=0xBF`. -/
def isCont (b : Nat) : Bool := 128 ≤ b && b ≤ 191

/-- RFC 3629 validity of a byte sequence. -/
def validUtf8 : List Nat → Bool
  | [] => true
  | b :: rest =>
    if b ≤ 0x7F then validUtf8 rest
    else if 0xC2 ≤ b && b ≤ 0xDF then
      match rest with
      | b1 :: r => isCont b1 && validUtf8 r
      | [] => false
    else if b = 0xE0 then
      match rest with
      | b1 :: b2 :: r => (0xA0 ≤ b1 && b1 ≤ 0xBF) && isCont b2 && validUtf8 r
      | _ => false
    else if (0xE1 ≤ b && b ≤ 0xEC) || b = 0xEE || b = 0xEF then
      match rest with
      | b1 :: b2 :: r => isCont b1 && isCont b2 && validUtf8 r
      | _ => false
    else if b = 0xED then
      match rest with
      | b1 :: b2 :: r => (0x80 ≤ b1 && b1 ≤ 0x9F) && isCont b2 && validUtf8 r
      | _ => false
    else if b = 0xF0 then
      match rest with
      | b1 :: b2 :: b3 :: r => (0x90 ≤ b1 && b1 ≤ 0xBF) && isCont b2 && isCont b3 && validUtf8 r
      | _ => false
    else if 0xF1 ≤ b && b ≤ 0xF3 then
      match rest with
      | b1 :: b2 :: b3 :: r => isCont b1 && isCont b2 && isCont b3 && validUtf8 r
      | _ => false
    else if b = 0xF4 then
      match rest with
      | b1 :: b2 :: b3 :: r => (0x80 ≤ b1 && b1 ≤ 0x8F) && isCont b2 && isCont b3 && validUtf8 r
      | _ => false
    else false

/-! ## Decoder (`from_reader` from `src/protos/flights.rs`)

The reader primitives (`next_tag`, `read_string`, `read_message`,
`read_int32`, `read_enum`, `read_packed`, `read_unknown`) are
`quick_protobuf` dependency code; they are modelled from the spec's decode
algorithm (§4.1): a single forward pass, varints and length-delimited slices
with bounds checks, UTF-8 validation of text fields, unknown tags skipped
according to the wire type actually present (0 = varint, 2 =
length-delimited), and failure on any other wire type.  A reader is a
function from the remaining bytes to a value and the rest of the buffer.

The per-message record loops (`while !r.is_eof()`) take a fuel argument to
stay structurally recursive; `l.length + 1` fuel always suffices because a
record consumes at least its tag byte. -/

instance {ε α : Type} [DecidableEq ε] [DecidableEq α] : DecidableEq (Except ε α) := fun a b =>
  match a, b with
  | .ok x, .ok y =>
    if h : x = y then isTrue (by rw [h]) else isFalse (by simp [h])
  | .error e, .error f =>
    if h : e = f then isTrue (by rw [h]) else isFalse (by simp [h])
  | .ok _, .error _ => isFalse (by simp)
  | .error _, .ok _ => isFalse (by simp)

/-- Decode errors.  `unexpectedEndOfBuffer` (truncated varint, or a declared
length exceeding the remaining bytes) and `invalidUtf8` are the spec's
`MalformedInput` class; `unknownWireType` is raised when an unknown field's
tag carries a wire type other than 0 or 2. -/
inductive Err
  | unexpectedEndOfBuffer
  | invalidUtf8
  | unknownWireType
deriving DecidableEq, Repr

/-- `read_varint64`: little-endian base-128; fails on a truncated varint. -/
def readVarint : List Nat → Except Err (Nat × List Nat)
  | [] => .error .unexpectedEndOfBuffer
  | b :: rest =>
    if b < 128 then .ok (b, rest)
    else
      match readVarint rest with
      | .ok (n, r) => .ok (b - 128 + 128 * n, r)
      | .error e => .error e

/-- A length-delimited slice: varint length, bounds check, split. -/
def readLenSlice (l : List Nat) : Except Err (List Nat × List Nat) :=
  match readVarint l with
  | .error e => .error e
  | .ok (len, r) =>
    if len ≤ r.length then .ok (r.take len, r.drop len) else .error .unexpectedEndOfBuffer

/-- `read_string`: a length-delimited slice that must be valid UTF-8. -/
def readString (l : List Nat) : Except Err (RStr × List Nat) :=
  match readLenSlice l with
  | .error e => .error e
  | .ok (s, r) => if validUtf8 s then .ok (s, r) else .error .invalidUtf8

/-- `read_unknown`: skip an unrecognized field according to the wire type in
its tag. -/
def readUnknown (tag : Nat) (l : List Nat) : Except Err (List Nat) :=
  if tag % 8 = 0 then
    match readVarint l with
    | .ok (_, r) => .ok r
    | .error e => .error e
  else if tag % 8 = 2 then
    match readLenSlice l with
    | .ok (_, r) => .ok r
    | .error e => .error e
  else .error .unknownWireType

/-- The record loop of `Airport::from_reader`. -/
def airportLoop : Nat → Airport → List Nat → Except Err Airport
  | _, msg, [] => .ok msg
  | 0, _, _ :: _ => .error .unexpectedEndOfBuffer
  | fuel + 1, msg, b :: r0 =>
    match readVarint (b :: r0) with
    | .error e => .error e
    | .ok (18, r) =>
      match readString r with
      | .ok (s, r2) => airportLoop fuel { airport := s } r2
      | .error e => .error e
    | .ok (t, r) =>
      match readUnknown t r with
      | .ok r2 => airportLoop fuel msg r2
      | .error e => .error e

/-- `Airport::from_reader`. -/
def airportFromReader (l : List Nat) : Except Err Airport :=
  airportLoop (l.length + 1) Airport.default l

/-- The record loop of `FlightData::from_reader`. -/
def flightDataLoop : Nat → FlightData → List Nat → Except Err FlightData
  | _, msg, [] => .ok msg
  | 0, _, _ :: _ => .error .unexpectedEndOfBuffer
  | fuel + 1, msg, b :: r0 =>
    match readVarint (b :: r0) with
    | .error e => .error e
    | .ok (18, r) =>
      match readString r with
      | .ok (s, r2) => flightDataLoop fuel { msg with date := s } r2
      | .error e => .error e
    | .ok (106, r) =>
      match readLenSlice r with
      | .ok (sub, r2) =>
        match airportFromReader sub with
        | .ok a => flightDataLoop fuel { msg with from_flight := some a } r2
        | .error e => .error e
      | .error e => .error e
    | .ok (114, r) =>
      match readLenSlice r with
      | .ok (sub, r2) =>
        match airportFromReader sub with
        | .ok a => flightDataLoop fuel { msg with to_flight := some a } r2
        | .error e => .error e
      | .error e => .error e
    | .ok (40, r) =>
      match readVarint r with
      | .ok (n, r2) => flightDataLoop fuel { msg with max_stops := i32OfU64 n } r2
      | .error e => .error e
    | .ok (t, r) =>
      match readUnknown t r with
      | .ok r2 => flightDataLoop fuel msg r2
      | .error e => .error e

/-- `FlightData::from_reader`. -/
def flightDataFromReader (l : List Nat) : Except Err FlightData :=
  flightDataLoop (l.length + 1) FlightData.default l

/-- The element loop of `read_packed` for the `passengers` field: read
enums until the slice is exhausted. -/
def packedPassengersLoop : Nat → List Passenger → List Nat → Except Err (List Passenger)
  | _, acc, [] => .ok acc
  | 0, _, _ :: _ => .error .unexpectedEndOfBuffer
  | fuel + 1, acc, b :: r0 =>
    match readVarint (b :: r0) with
    | .ok (n, r) => packedPassengersLoop fuel (acc ++ [Passenger.fromI32 (i32OfU64 n)]) r
    | .error e => .error e

/-- The record loop of `Info::from_reader`. -/
def infoLoop : Nat → Info → List Nat → Except Err Info
  | _, msg, [] => .ok msg
  | 0, _, _ :: _ => .error .unexpectedEndOfBuffer
  | fuel + 1, msg, b :: r0 =>
    match readVarint (b :: r0) with
    | .error e => .error e
    | .ok (26, r) =>
      match readLenSlice r with
      | .ok (sub, r2) =>
        match flightDataFromReader sub with
        | .ok fd => infoLoop fuel { msg with data := msg.data ++ [fd] } r2
        | .error e => .error e
      | .error e => .error e
    | .ok (72, r) =>
      match readVarint r with
      | .ok (n, r2) => infoLoop fuel { msg with seat := Seat.fromI32 (i32OfU64 n) } r2
      | .error e => .error e
    | .ok (66, r) =>
      match readLenSlice r with
      | .ok (sub, r2) =>
        match packedPassengersLoop (sub.length + 1) [] sub with
        | .ok ps => infoLoop fuel { msg with passengers := ps } r2
        | .error e => .error e
      | .error e => .error e
    | .ok (152, r) =>
      match readVarint r with
      | .ok (n, r2) => infoLoop fuel { msg with trip := Trip.fromI32 (i32OfU64 n) } r2
      | .error e => .error e
    | .ok (t, r) =>
      match readUnknown t r with
      | .ok r2 => infoLoop fuel msg r2
      | .error e => .error e

/-- `Info::from_reader`: decode a whole buffer (the builder's
`serialize_into_vec` writes the top-level message bare, with no length
prefix). -/
def infoFromReader (l : List Nat) : Except Err Info :=
  infoLoop (l.length + 1) Info.default l

/-! ## Query builder (`make_tfs` from `src/tfs.rs`)

Python-boundary values are modelled by their extracted Rust types: a leg
mapping is an association list of string keys to string values (HashMap
iteration visits each key once, in an unspecified order; since distinct keys
set distinct fields, list order is an equivalent rendering), passenger and
seat/trip names are `String`s.  `PyKeyError`/`PyValueError` are
`keyError`/`valueError` (the spec's `UnknownFieldName`/`UnknownEnumValue`). -/

/-- Builder errors: `PyErr::new::<PyKeyError>(key)` and
`PyErr::new::<PyValueError>(message)`. -/
inductive TfsError
  | keyError (key : String)
  | valueError (msg : String)
deriving DecidableEq, Repr

/-- The result wrapper `Tfs { data, bytes }` (the spec's EncodedQuery). -/
structure TfsResult where
  data : Info
  bytes : List Nat
deriving DecidableEq, Repr

/-- The `for (key, value) in flight` loop of `make_tfs`: set `date` directly,
wrap `from`/`to` in an `Airport`, reject any other key. -/
def processFlight : List (String × RStr) → FlightData → Except TfsError FlightData
  | [], acc => .ok acc
  | (k, v) :: rest, acc =>
    if k = "date" then processFlight rest { acc with date := v }
    else if k = "from" then processFlight rest { acc with from_flight := some ⟨v⟩ }
    else if k = "to" then processFlight rest { acc with to_flight := some ⟨v⟩ }
    else .error (.keyError k)

/-- The `for flight in flights_data` loop of `make_tfs`. -/
def processFlights : List (List (String × RStr)) → Except TfsError (List FlightData)
  | [] => .ok []
  | f :: rest =>
    match processFlight f FlightData.default with
    | .error e => .error e
    | .ok fd =>
      match processFlights rest with
      | .error e => .error e
      | .ok others => .ok (fd :: others)

/-- One passenger name of `make_tfs`'s passenger loop (case-sensitive). -/
def parsePassenger (s : String) : Except TfsError Passenger :=
  if s = "adult" then .ok .ADULT
  else if s = "child" then .ok .CHILD
  else if s = "infant_in_seat" then .ok .INFANT_IN_SEAT
  else if s = "infant_on_lap" then .ok .INFANT_ON_LAP
  else .error (.valueError ("Unknown passenger name " ++ s))

/-- The `for passenger in passengers_data` loop of `make_tfs`. -/
def processPassengers : List String → Except TfsError (List Passenger)
  | [] => .ok []
  | p :: rest =>
    match parsePassenger p with
    | .error e => .error e
    | .ok v =>
      match processPassengers rest with
      | .error e => .error e
      | .ok others => .ok (v :: others)

/-- The seat match of `make_tfs` (case-sensitive). -/
def parseSeat (s : String) : Except TfsError Seat :=
  if s = "economy" then .ok .ECONOMY
  else if s = "premium_economy" then .ok .PREMIUM_ECONOMY
  else if s = "business" then .ok .BUSINESS
  else if s = "first" then .ok .FIRST
  else .error (.valueError ("Unknown seat name " ++ s))

/-- The trip match of `make_tfs` (case-sensitive). -/
def parseTrip (s : String) : Except TfsError Trip :=
  if s = "round_trip" then .ok .ROUND_TRIP
  else if s = "one_way" then .ok .ONE_WAY
  else if s = "multi_city" then .ok .MULTI_CITY
  else .error (.valueError ("Unknown trip name " ++ s))

/-- `make_tfs`: legs, then passengers, then seat, then trip, in the source's
order; assemble the `Info` and serialize it.  `serialize_into_vec` writes
through a `Vec` backend, which never fails, so the final step is direct. -/
def makeTfs (flights_data : List (List (String × RStr))) (seat_data : String)
    (passengers_data : List String) (trip_data : String) : Except TfsError TfsResult :=
  match processFlights flights_data with
  | .error e => .error e
  | .ok flights =>
    match processPassengers passengers_data with
    | .error e => .error e
    | .ok passengers =>
      match parseSeat seat_data with
      | .error e => .error e
      | .ok seat =>
        match parseTrip trip_data with
        | .error e => .error e
        | .ok trip =>
          let tfs : Info := { data := flights, seat := seat, passengers := passengers, trip := trip }
          .ok { data := tfs, bytes := encodeInfo tfs }

/-! ## Base64 (`Tfs::base64` from `src/tfs.rs`)

Modelled from the spec: `base64_light::base64_encode_bytes` is dependency
code not under `src/`; the spec (§6) fixes it as standard base64 (standard
alphabet, `=` padding, no URL-safe substitution). -/

/-- The standard base64 alphabet. -/
def b64Alphabet : List Char :=
  ['A', 'B', 'C', 'D', 'E', 'F', 'G', 'H', 'I', 'J', 'K', 'L', 'M',
   'N', 'O', 'P', 'Q', 'R', 'S', 'T', 'U', 'V', 'W', 'X', 'Y', 'Z',
   'a', 'b', 'c', 'd', 'e', 'f', 'g', 'h', 'i', 'j', 'k', 'l', 'm',
   'n', 'o', 'p', 'q', 'r', 's', 't', 'u', 'v', 'w', 'x', 'y', 'z',
   '0', '1', '2', '3', '4', '5', '6', '7', '8', '9', '+', '/']

/-- The alphabet character of a 6-bit group. -/
def b64Char (n : Nat) : Char := b64Alphabet.getD n 'A'

def b64IndexAux : List Char → Nat → Char → Option Nat
  | [], _, _ => none
  | a :: r, i, c => if a = c then some i else b64IndexAux r (i + 1) c

/-- The 6-bit value of an alphabet character. -/
def b64Index (c : Char) : Option Nat := b64IndexAux b64Alphabet 0 c

/-- Standard base64 with `=` padding, three input bytes per four output
characters. -/
def base64Encode : List Nat → List Char
  | [] => []
  | [a] => [b64Char (a / 4), b64Char (a % 4 * 16), '=', '=']
  | [a, b] => [b64Char (a / 4), b64Char (a % 4 * 16 + b / 16), b64Char (b % 16 * 4), '=']
  | a :: b :: c :: rest =>
    b64Char (a / 4) :: b64Char (a % 4 * 16 + b / 16)
      :: b64Char (b % 16 * 4 + c / 64) :: b64Char (c % 64) :: base64Encode rest

/-- Standard base64 decoding; `=` padding is accepted only at the end. -/
def base64Decode : List Char → Option (List Nat)
  | [] => some []
  | c1 :: c2 :: c3 :: c4 :: rest =>
    match b64Index c1, b64Index c2 with
    | some v1, some v2 =>
      if c3 = '=' ∧ c4 = '=' ∧ rest = [] then some [v1 * 4 + v2 / 16]
      else
        match b64Index c3 with
        | some v3 =>
          if c4 = '=' ∧ rest = [] then some [v1 * 4 + v2 / 16, v2 % 16 * 16 + v3 / 4]
          else
            match b64Index c4, base64Decode rest with
            | some v4, some tail =>
              some ((v1 * 4 + v2 / 16) :: (v2 % 16 * 16 + v3 / 4) :: (v3 % 4 * 64 + v4) :: tail)
            | _, _ => none
        | none => none
    | _, _ => none
  | _ => none

/-- `Tfs::base64`: the textual rendering of the encoded bytes. -/
def tfsBase64 (t : TfsResult) : List Char := base64Encode t.bytes

/-! ## Well-formedness

The representation invariants the Rust types carry for free: strings are
valid UTF-8, `max_stops` is in `i32` range. -/

/-- An `i32` value. -/
def wfI32 (i : Int) : Bool := decide (-(2 ^ 31) ≤ i) && decide (i < 2 ^ 31)

/-- Well-formed `Airport`: its code is a valid UTF-8 byte list. -/
def wfAirport (a : Airport) : Bool := validUtf8 a.airport

def wfOptAirport : Option Airport → Bool
  | none => true
  | some a => wfAirport a

/-- Well-formed `FlightData`. -/
def wfFlightData (fd : FlightData) : Bool :=
  validUtf8 fd.date && wfOptAirport fd.from_flight && wfOptAirport fd.to_flight
    && wfI32 fd.max_stops

/-- Well-formed `Info` (seat, trip and passengers are well-formed by
construction). -/
def wfInfo (q : Info) : Bool := q.data.all wfFlightData

/-- Byte-range invariant of Rust's `u8`/`String` data: every element is a
byte value.  (Valid UTF-8 implies this; the weaker bound is all the encoder
needs.) -/
def bytesOk (s : RStr) : Bool := s.all (fun b => decide (b < 256))

def optAirportBytesOk : Option Airport → Bool
  | none => true
  | some a => bytesOk a.airport

/-- Byte-range invariant of a `FlightData`'s strings. -/
def flightDataBytesOk (fd : FlightData) : Bool :=
  bytesOk fd.date && optAirportBytesOk fd.from_flight && optAirportBytesOk fd.to_flight

/-- Byte-range invariant of an `Info`'s strings. -/
def infoBytesOk (q : Info) : Bool := q.data.all flightDataBytesOk

/-! ## Builder input validity

The closed tables of `make_tfs`, as predicates on the raw inputs. -/

/-- Every key of every leg mapping is one of `date`, `from`, `to`. -/
def legKeysOk (legs : List (List (String × RStr))) : Bool :=
  legs.all (fun leg => leg.all (fun kv => kv.1 = "date" || kv.1 = "from" || kv.1 = "to"))

/-- The seat name is in the builder's closed set. -/
def seatNameOk (s : String) : Bool :=
  s = "economy" || s = "premium_economy" || s = "business" || s = "first"

/-- Every passenger name is in the builder's closed set. -/
def paxNamesOk (ps : List String) : Bool :=
  ps.all (fun p => p = "adult" || p = "child" || p = "infant_in_seat" || p = "infant_on_lap")

/-- The trip name is in the builder's closed set. -/
def tripNameOk (t : String) : Bool :=
  t = "round_trip" || t = "one_way" || t = "multi_city"

/-! ## Basic lemmas -/

theorem take_len_append {α : Type} (a b : List α) : (a ++ b).take a.length = a := by
  induction a with
  | nil => simp
  | cons x xs ih => simp [ih]

theorem drop_len_append {α : Type} (a b : List α) : (a ++ b).drop a.length = b := by
  induction a with
  | nil => simp
  | cons x xs ih => simp [ih]

/-- Reading back a written varint yields the value and the rest. -/
theorem readVarint_writeVarint (n : Nat) : ∀ rest, readVarint (writeVarint n ++ rest) = .ok (n, rest) := by
  induction n using Nat.strong_induction_on with
  | _ n ih =>
    intro rest
    rw [writeVarint_eq]
    by_cases h : n < 128
    · simp [readVarint, h]
    · have h2 : ¬ n % 128 + 128 < 128 := by omega
      have h3 : n / 128 < n := by omega
      simp only [h, if_false, List.cons_append, readVarint, h2, ih (n / 128) h3 rest]
      have h4 : n % 128 + 128 - 128 + 128 * (n / 128) = n := by omega
      rw [h4]

theorem readVarint_small {b : Nat} (h : b < 128) (rest : List Nat) :
    readVarint (b :: rest) = .ok (b, rest) := by
  simp [readVarint, h]

/-- Reading back a written length-delimited slice. -/
theorem readLenSlice_spec (p rest : List Nat) :
    readLenSlice (writeVarint p.length ++ (p ++ rest)) = .ok (p, rest) := by
  simp only [readLenSlice, readVarint_writeVarint]
  have h : p.length ≤ (p ++ rest).length := by simp
  simp [h, take_len_append, drop_len_append]

/-- Reading back a written string. -/
theorem readString_spec {s : RStr} (hs : validUtf8 s = true) (rest : List Nat) :
    readString (writeVarint s.length ++ (s ++ rest)) = .ok (s, rest) := by
  simp [readString, readLenSlice_spec, hs]

theorem sizeofVarint_eq (n : Nat) : sizeofVarint n = (writeVarint n).length := rfl

/-- `Airport::get_size` equals the emitted byte count. -/
theorem encodeAirport_length (a : Airport) : (encodeAirport a).length = a.size := by
  unfold encodeAirport Airport.size
  by_cases h : a.airport = []
  · simp [h]
  · simp [h, sizeofLen, sizeofVarint, writeVarint_small (show (18 : Nat) < 128 by omega)]
    omega

/-- `FlightData::get_size` equals the emitted byte count. -/
theorem encodeFlightData_length (fd : FlightData) : (encodeFlightData fd).length = fd.size := by
  unfold encodeFlightData FlightData.size
  unfold encodeDateField encodeFromField encodeToField encodeStopsField
  have h18 := writeVarint_small (show (18 : Nat) < 128 by omega)
  have h106 := writeVarint_small (show (106 : Nat) < 128 by omega)
  have h114 := writeVarint_small (show (114 : Nat) < 128 by omega)
  have h40 := writeVarint_small (show (40 : Nat) < 128 by omega)
  by_cases hd : fd.date = [] <;>
  rcases hf : fd.from_flight with _ | af <;>
  rcases ht : fd.to_flight with _ | at' <;>
  by_cases hm : fd.max_stops = 0 <;>
  simp [hd, hf, ht, hm, h18, h106, h114, h40, sizeofLen, sizeofVarint,
    encodeAirport_length] <;>
  omega

/-- Enum discriminants survive the u64/i32 conversions. -/
theorem i32OfU64_small {n : Nat} (h : n < 2 ^ 31) : i32OfU64 n = (n : Int) := by
  unfold i32OfU64
  have h1 : n % 2 ^ 32 = n := Nat.mod_eq_of_lt (by omega)
  simp only [h1]
  simp only [show (2147483648 : Nat) = 2 ^ 31 from rfl, h, if_true]

theorem seat_fromI32_toNat (s : Seat) : Seat.fromI32 (i32OfU64 s.toNat) = s := by
  cases s <;> simp [Seat.toNat, i32OfU64, Seat.fromI32]

theorem trip_fromI32_toNat (t : Trip) : Trip.fromI32 (i32OfU64 t.toNat) = t := by
  cases t <;> simp [Trip.toNat, i32OfU64, Trip.fromI32]

theorem passenger_fromI32_toNat (p : Passenger) : Passenger.fromI32 (i32OfU64 p.toNat) = p := by
  cases p <;> simp [Passenger.toNat, i32OfU64, Passenger.fromI32]

/-- An `i32` survives the sign-extension to u64 and truncation back. -/
theorem i32OfU64_u64OfI32 {i : Int} (h1 : -(2 ^ 31) ≤ i) (h2 : i < 2 ^ 31) :
    i32OfU64 (u64OfI32 i) = i := by
  unfold u64OfI32 i32OfU64
  by_cases hpos : 0 ≤ i
  · have he : i % (2 ^ 64 : Int) = i := Int.emod_eq_of_lt hpos (by omega)
    rw [he]
    have h3 : i.toNat < 2 ^ 31 := by omega
    have h4 : i.toNat % 2 ^ 32 = i.toNat := Nat.mod_eq_of_lt (by omega)
    simp only [h4]
    simp only [h3, if_true]
    omega
  · have he : i % (2 ^ 64 : Int) = i + 2 ^ 64 := by omega
    rw [he]
    have h3 : (i + 2 ^ 64).toNat = (i + 2 ^ 64).toNat % 2 ^ 32 + (2 ^ 32) * ((i + 2 ^ 64).toNat / 2 ^ 32) := by
      omega
    have h4 : (i + 2 ^ 64).toNat % 2 ^ 32 = (i + 2 ^ 32).toNat := by omega
    simp only [h4]
    have h5 : ¬ (i + 2 ^ 32).toNat < 2 ^ 31 := by omega
    simp only [h5, if_false]
    omega

/-! ## Round-trip: message loops over their own encodings

Each loop lemma is in continuation style: if the loop yields `RES` on the
remaining buffer from the post-record state (for any sufficient fuel), it
yields `RES` on the record followed by that buffer from the pre-record
state.  Fuel only has to dominate the remaining byte count because every
iteration consumes at least the tag byte. -/

theorem airportLoop_nil (fuel : Nat) (msg : Airport) : airportLoop fuel msg [] = .ok msg := by
  cases fuel <;> rfl

theorem flightDataLoop_nil (fuel : Nat) (msg : FlightData) :
    flightDataLoop fuel msg [] = .ok msg := by
  cases fuel <;> rfl

theorem infoLoop_nil (fuel : Nat) (msg : Info) : infoLoop fuel msg [] = .ok msg := by
  cases fuel <;> rfl

theorem packedPassengersLoop_nil (fuel : Nat) (acc : List Passenger) :
    packedPassengersLoop fuel acc [] = .ok acc := by
  cases fuel <;> rfl

theorem airportLoop_step18 (fuel : Nat) (msg : Airport) {s : RStr} (hs : validUtf8 s = true)
    (rest : List Nat) :
    airportLoop (fuel + 1) msg (18 :: (writeVarint s.length ++ (s ++ rest)))
      = airportLoop fuel ⟨s⟩ rest := by
  simp only [airportLoop, readVarint_small (show (18 : Nat) < 128 by omega),
    readString_spec hs rest]

/-- `Airport::from_reader` inverts `Airport::write_message`. -/
theorem airport_roundtrip {a : Airport} (h : wfAirport a = true) :
    airportFromReader (encodeAirport a) = .ok a := by
  obtain ⟨code⟩ := a
  unfold wfAirport at h
  simp only at h
  unfold airportFromReader
  by_cases he : code = []
  · subst he
    simp [encodeAirport, airportLoop_nil, Airport.default]
  · have hcons : encodeAirport ⟨code⟩ = 18 :: (writeVarint code.length ++ code) := by
      unfold encodeAirport
      simp [he, writeVarint_small (show (18 : Nat) < 128 by omega)]
    rw [hcons]
    have hstep := airportLoop_step18 ((writeVarint code.length ++ code).length + 1)
      Airport.default (s := code) h []
    simp only [List.append_nil] at hstep
    simp only [List.length_cons]
    rw [hstep]
    exact airportLoop_nil _ _

/-- Phase `date` of `FlightData::from_reader` over an encoding. -/
theorem fdPhase_date {d : RStr} (hd : validUtf8 d = true) (rest : List Nat)
    (RES : Except Err FlightData) (fo to_ : Option Airport) (ms : Int)
    (cont : ∀ f2, rest.length < f2 → flightDataLoop f2 ⟨d, fo, to_, ms⟩ rest = RES) :
    ∀ fuel, (encodeDateField d ++ rest).length < fuel →
      flightDataLoop fuel ⟨[], fo, to_, ms⟩ (encodeDateField d ++ rest) = RES := by
  intro fuel hf
  by_cases he : d = []
  · subst he
    simp only [encodeDateField, if_pos rfl, List.nil_append] at hf ⊢
    exact cont fuel hf
  · have hEq : encodeDateField d ++ rest = 18 :: (writeVarint d.length ++ (d ++ rest)) := by
      unfold encodeDateField
      simp [he, writeVarint_small (show (18 : Nat) < 128 by omega)]
    rw [hEq] at hf ⊢
    obtain ⟨k, rfl⟩ : ∃ k, fuel = k + 1 := ⟨fuel - 1, by omega⟩
    simp only [flightDataLoop, readVarint_small (show (18 : Nat) < 128 by omega),
      readString_spec hd rest]
    refine cont k ?_
    simp only [List.length_cons, List.length_append] at hf
    omega

/-- Phase `from_flight` of `FlightData::from_reader` over an encoding. -/
theorem fdPhase_from {a? : Option Airport} (ha : wfOptAirport a? = true) (rest : List Nat)
    (RES : Except Err FlightData) (d : RStr) (to_ : Option Airport) (ms : Int)
    (cont : ∀ f2, rest.length < f2 → flightDataLoop f2 ⟨d, a?, to_, ms⟩ rest = RES) :
    ∀ fuel, (encodeFromField a? ++ rest).length < fuel →
      flightDataLoop fuel ⟨d, none, to_, ms⟩ (encodeFromField a? ++ rest) = RES := by
  intro fuel hf
  match a?, ha with
  | none, _ =>
    simp only [encodeFromField, List.nil_append] at hf ⊢
    exact cont fuel hf
  | some a, ha =>
    have ha2 : wfAirport a = true := ha
    have hEq : encodeFromField (some a) ++ rest
        = 106 :: (writeVarint (encodeAirport a).length ++ (encodeAirport a ++ rest)) := by
      unfold encodeFromField
      rw [encodeAirport_length a]
      simp [writeVarint_small (show (106 : Nat) < 128 by omega)]
    rw [hEq] at hf ⊢
    obtain ⟨k, rfl⟩ : ∃ k, fuel = k + 1 := ⟨fuel - 1, by omega⟩
    simp only [flightDataLoop, readVarint_small (show (106 : Nat) < 128 by omega),
      readLenSlice_spec, airport_roundtrip ha2]
    refine cont k ?_
    simp only [List.length_cons, List.length_append] at hf
    omega

/-- Phase `to_flight` of `FlightData::from_reader` over an encoding. -/
theorem fdPhase_to {a? : Option Airport} (ha : wfOptAirport a? = true) (rest : List Nat)
    (RES : Except Err FlightData) (d : RStr) (fo : Option Airport) (ms : Int)
    (cont : ∀ f2, rest.length < f2 → flightDataLoop f2 ⟨d, fo, a?, ms⟩ rest = RES) :
    ∀ fuel, (encodeToField a? ++ rest).length < fuel →
      flightDataLoop fuel ⟨d, fo, none, ms⟩ (encodeToField a? ++ rest) = RES := by
  intro fuel hf
  match a?, ha with
  | none, _ =>
    simp only [encodeToField, List.nil_append] at hf ⊢
    exact cont fuel hf
  | some a, ha =>
    have ha2 : wfAirport a = true := ha
    have hEq : encodeToField (some a) ++ rest
        = 114 :: (writeVarint (encodeAirport a).length ++ (encodeAirport a ++ rest)) := by
      unfold encodeToField
      rw [encodeAirport_length a]
      simp [writeVarint_small (show (114 : Nat) < 128 by omega)]
    rw [hEq] at hf ⊢
    obtain ⟨k, rfl⟩ : ∃ k, fuel = k + 1 := ⟨fuel - 1, by omega⟩
    simp only [flightDataLoop, readVarint_small (show (114 : Nat) < 128 by omega),
      readLenSlice_spec, airport_roundtrip ha2]
    refine cont k ?_
    simp only [List.length_cons, List.length_append] at hf
    omega

/-- Phase `max_stops` of `FlightData::from_reader` over an encoding. -/
theorem fdPhase_stops {ms : Int} (hms : wfI32 ms = true) (rest : List Nat)
    (RES : Except Err FlightData) (d : RStr) (fo to_ : Option Airport)
    (cont : ∀ f2, rest.length < f2 → flightDataLoop f2 ⟨d, fo, to_, ms⟩ rest = RES) :
    ∀ fuel, (encodeStopsField ms ++ rest).length < fuel →
      flightDataLoop fuel ⟨d, fo, to_, 0⟩ (encodeStopsField ms ++ rest) = RES := by
  intro fuel hf
  by_cases he : ms = 0
  · subst he
    simp only [encodeStopsField, if_pos rfl, List.nil_append] at hf ⊢
    exact cont fuel hf
  · have hms2 : i32OfU64 (u64OfI32 ms) = ms := by
      unfold wfI32 at hms
      simp only [Bool.and_eq_true, decide_eq_true_eq] at hms
      exact i32OfU64_u64OfI32 hms.1 hms.2
    have hEq : encodeStopsField ms ++ rest = 40 :: (writeVarint (u64OfI32 ms) ++ rest) := by
      unfold encodeStopsField
      simp [he, writeVarint_small (show (40 : Nat) < 128 by omega)]
    rw [hEq] at hf ⊢
    obtain ⟨k, rfl⟩ : ∃ k, fuel = k + 1 := ⟨fuel - 1, by omega⟩
    simp only [flightDataLoop, readVarint_small (show (40 : Nat) < 128 by omega),
      readVarint_writeVarint, hms2]
    refine cont k ?_
    simp only [List.length_cons, List.length_append] at hf
    omega

/-- `FlightData::from_reader` inverts `FlightData::write_message`. -/
theorem flightData_roundtrip {fd : FlightData} (h : wfFlightData fd = true) :
    flightDataFromReader (encodeFlightData fd) = .ok fd := by
  obtain ⟨d, fo, to_, ms⟩ := fd
  unfold wfFlightData at h
  simp only [Bool.and_eq_true] at h
  obtain ⟨⟨⟨hd, hfo⟩, hto⟩, hms⟩ := h
  unfold flightDataFromReader
  rw [show encodeFlightData ⟨d, fo, to_, ms⟩
      = encodeDateField d ++ (encodeFromField fo ++ (encodeToField to_ ++ (encodeStopsField ms ++ []))) by
    unfold encodeFlightData
    simp [List.append_assoc]]
  refine fdPhase_date hd _ _ none none 0 ?_ _ (by omega)
  intro f2 h2
  refine fdPhase_from hfo _ _ d none 0 ?_ f2 h2
  intro f3 h3
  refine fdPhase_to hto _ _ d fo 0 ?_ f3 h3
  intro f4 h4
  refine fdPhase_stops hms _ _ d fo to_ ?_ f4 h4
  intro f5 _
  exact flightDataLoop_nil f5 _

theorem Passenger.toNat_lt (p : Passenger) : p.toNat < 128 := by
  cases p <;> simp [Passenger.toNat]

/-- The packed passenger payload length is the summed element size. -/
theorem paxPayload_length (ps : List Passenger) :
    ((ps.map (fun p => writeVarint p.toNat)).flatten).length
      = (ps.map (fun s => sizeofVarint s.toNat)).sum := by
  induction ps with
  | nil => simp
  | cons p ps ih => simp [ih, sizeofVarint]

/-- `read_packed` collects the packed elements in order. -/
theorem packedLoop_spec (ps : List Passenger) :
    ∀ (acc : List Passenger) fuel,
      ((ps.map (fun p => writeVarint p.toNat)).flatten).length < fuel →
      packedPassengersLoop fuel acc ((ps.map (fun p => writeVarint p.toNat)).flatten)
        = .ok (acc ++ ps) := by
  induction ps with
  | nil =>
    intro acc fuel _
    simp [packedPassengersLoop_nil]
  | cons p ps ih =>
    intro acc fuel hf
    have hEq : (((p :: ps).map (fun p => writeVarint p.toNat)).flatten)
        = p.toNat :: ((ps.map (fun p => writeVarint p.toNat)).flatten) := by
      simp [writeVarint_small (Passenger.toNat_lt p)]
    rw [hEq] at hf ⊢
    obtain ⟨k, rfl⟩ : ∃ k, fuel = k + 1 := ⟨fuel - 1, by omega⟩
    simp only [packedPassengersLoop, readVarint_small (Passenger.toNat_lt p),
      passenger_fromI32_toNat]
    rw [ih (acc ++ [p]) k (by simp only [List.length_cons] at hf; omega)]
    simp

/-- Phase `data` (legs) of `Info::from_reader` over an encoding: one record
per leg, appended in order. -/
theorem infoPhase_legs (legs : List FlightData) (hwf : legs.all wfFlightData = true) :
    ∀ (D : List FlightData) (s : Seat) (p : List Passenger) (t : Trip)
      (rest : List Nat) (RES : Except Err Info),
      (∀ f2, rest.length < f2 → infoLoop f2 ⟨D ++ legs, s, p, t⟩ rest = RES) →
      ∀ fuel, ((legs.map encodeLegField).flatten ++ rest).length < fuel →
        infoLoop fuel ⟨D, s, p, t⟩ ((legs.map encodeLegField).flatten ++ rest) = RES := by
  induction legs with
  | nil =>
    intro D s p t rest RES cont fuel hf
    simp only [List.map_nil, List.flatten_nil, List.nil_append] at hf ⊢
    have h2 := cont fuel hf
    simpa using h2
  | cons fd legs ih =>
    intro D s p t rest RES cont fuel hf
    simp only [List.all_cons, Bool.and_eq_true] at hwf
    obtain ⟨hfd, hwf2⟩ := hwf
    have hEq : (((fd :: legs).map encodeLegField).flatten ++ rest)
        = 26 :: (writeVarint (encodeFlightData fd).length
            ++ (encodeFlightData fd ++ ((legs.map encodeLegField).flatten ++ rest))) := by
      simp only [List.map_cons, List.flatten_cons, encodeLegField]
      rw [← encodeFlightData_length fd]
      simp [writeVarint_small (show (26 : Nat) < 128 by omega), List.append_assoc]
    rw [hEq] at hf ⊢
    obtain ⟨k, rfl⟩ : ∃ k, fuel = k + 1 := ⟨fuel - 1, by omega⟩
    simp only [infoLoop, readVarint_small (show (26 : Nat) < 128 by omega),
      readLenSlice_spec, flightData_roundtrip hfd]
    refine ih hwf2 (D ++ [fd]) s p t rest RES ?_ k ?_
    · intro f2 h2
      have h3 := cont f2 h2
      simpa [List.append_assoc] using h3
    · simp only [List.length_cons, List.length_append] at hf ⊢
      omega

/-- Phase `seat` of `Info::from_reader` over an encoding. -/
theorem infoPhase_seat (s : Seat) (D : List FlightData) (rest : List Nat)
    (RES : Except Err Info)
    (cont : ∀ f2, rest.length < f2 → infoLoop f2 ⟨D, s, [], .UNKNOWN_TRIP⟩ rest = RES) :
    ∀ fuel, (encodeSeatField s ++ rest).length < fuel →
      infoLoop fuel ⟨D, .UNKNOWN_SEAT, [], .UNKNOWN_TRIP⟩ (encodeSeatField s ++ rest) = RES := by
  intro fuel hf
  by_cases he : s = .UNKNOWN_SEAT
  · subst he
    simp only [encodeSeatField, if_pos rfl, List.nil_append] at hf ⊢
    exact cont fuel hf
  · have hEq : encodeSeatField s ++ rest = 72 :: (writeVarint s.toNat ++ rest) := by
      unfold encodeSeatField
      simp [he, writeVarint_small (show (72 : Nat) < 128 by omega)]
    rw [hEq] at hf ⊢
    obtain ⟨k, rfl⟩ : ∃ k, fuel = k + 1 := ⟨fuel - 1, by omega⟩
    simp only [infoLoop, readVarint_small (show (72 : Nat) < 128 by omega),
      readVarint_writeVarint, seat_fromI32_toNat]
    refine cont k ?_
    simp only [List.length_cons, List.length_append] at hf
    omega

/-- Phase `passengers` of `Info::from_reader` over an encoding. -/
theorem infoPhase_pax (p : List Passenger) (D : List FlightData) (s : Seat)
    (rest : List Nat) (RES : Except Err Info)
    (cont : ∀ f2, rest.length < f2 → infoLoop f2 ⟨D, s, p, .UNKNOWN_TRIP⟩ rest = RES) :
    ∀ fuel, (encodePassengersField p ++ rest).length < fuel →
      infoLoop fuel ⟨D, s, [], .UNKNOWN_TRIP⟩ (encodePassengersField p ++ rest) = RES := by
  intro fuel hf
  by_cases he : p = []
  · subst he
    simp only [encodePassengersField, if_pos rfl, List.nil_append] at hf ⊢
    exact cont fuel hf
  · have hEq : encodePassengersField p ++ rest
        = 66 :: (writeVarint ((p.map (fun q => writeVarint q.toNat)).flatten).length
            ++ ((p.map (fun q => writeVarint q.toNat)).flatten ++ rest)) := by
      unfold encodePassengersField
      rw [← paxPayload_length p]
      simp [he, writeVarint_small (show (66 : Nat) < 128 by omega)]
    rw [hEq] at hf ⊢
    obtain ⟨k, rfl⟩ : ∃ k, fuel = k + 1 := ⟨fuel - 1, by omega⟩
    simp only [infoLoop, readVarint_small (show (66 : Nat) < 128 by omega),
      readLenSlice_spec]
    rw [packedLoop_spec p [] (((p.map (fun q => writeVarint q.toNat)).flatten).length + 1)
      (by omega)]
    simp only [List.nil_append]
    refine cont k ?_
    simp only [List.length_cons, List.length_append] at hf
    omega

theorem writeVarint_152 : writeVarint 152 = [152, 1] := by decide

theorem readVarint_152 (rest : List Nat) : readVarint (152 :: (1 :: rest)) = .ok (152, rest) := by
  simp [readVarint]

/-- Phase `trip` of `Info::from_reader` over an encoding (two-byte tag). -/
theorem infoPhase_trip (t : Trip) (D : List FlightData) (s : Seat) (p : List Passenger)
    (rest : List Nat) (RES : Except Err Info)
    (cont : ∀ f2, rest.length < f2 → infoLoop f2 ⟨D, s, p, t⟩ rest = RES) :
    ∀ fuel, (encodeTripField t ++ rest).length < fuel →
      infoLoop fuel ⟨D, s, p, .UNKNOWN_TRIP⟩ (encodeTripField t ++ rest) = RES := by
  intro fuel hf
  by_cases he : t = .UNKNOWN_TRIP
  · subst he
    simp only [encodeTripField, if_pos rfl, List.nil_append] at hf ⊢
    exact cont fuel hf
  · have hEq : encodeTripField t ++ rest = 152 :: (1 :: (writeVarint t.toNat ++ rest)) := by
      unfold encodeTripField
      simp [he, writeVarint_152]
    rw [hEq] at hf ⊢
    obtain ⟨k, rfl⟩ : ∃ k, fuel = k + 1 := ⟨fuel - 1, by omega⟩
    simp only [infoLoop, readVarint_152, readVarint_writeVarint, trip_fromI32_toNat]
    refine cont k ?_
    simp only [List.length_cons, List.length_append] at hf
    omega

/-- `Info::from_reader` inverts `Info::write_message` on well-formed
queries. -/
theorem info_roundtrip {q : Info} (h : wfInfo q = true) :
    infoFromReader (encodeInfo q) = .ok q := by
  obtain ⟨D, s, p, t⟩ := q
  unfold wfInfo at h
  simp only at h
  unfold infoFromReader
  rw [show encodeInfo ⟨D, s, p, t⟩
      = (D.map encodeLegField).flatten
        ++ (encodeSeatField s ++ (encodePassengersField p ++ (encodeTripField t ++ []))) by
    unfold encodeInfo
    simp [List.append_assoc]]
  refine infoPhase_legs D h [] .UNKNOWN_SEAT [] .UNKNOWN_TRIP _ _ ?_ _ (by omega)
  intro f2 h2
  simp only [List.nil_append]
  refine infoPhase_seat s D _ _ ?_ f2 h2
  intro f3 h3
  refine infoPhase_pax p D s _ _ ?_ f3 h3
  intro f4 h4
  refine infoPhase_trip t D s p _ _ ?_ f4 h4
  intro f5 _
  exact infoLoop_nil f5 _

/-! ## Base64 round-trip and encoder byte bounds -/

theorem b64Index_b64Char : ∀ n : Nat, n < 64 → b64Index (b64Char n) = some n := by decide

theorem b64Char_ne_pad : ∀ n : Nat, n < 64 → b64Char n ≠ '=' := by decide

/-- Standard base64 decoding inverts encoding on byte lists. -/
theorem base64_roundtrip (l : List Nat) (h : ∀ b ∈ l, b < 256) :
    base64Decode (base64Encode l) = some l := by
  induction l using base64Encode.induct with
  | case1 => rfl
  | case2 a =>
    have ha : a < 256 := h a (by simp)
    simp only [base64Encode, base64Decode]
    rw [b64Index_b64Char _ (by omega), b64Index_b64Char _ (by omega)]
    simp
    omega
  | case3 a b =>
    have ha : a < 256 := h a (by simp)
    have hb : b < 256 := h b (by simp)
    simp only [base64Encode, base64Decode]
    rw [b64Index_b64Char _ (by omega), b64Index_b64Char _ (by omega),
      b64Index_b64Char _ (by omega)]
    have hne := b64Char_ne_pad (b % 16 * 4) (by omega)
    simp [hne]
    omega
  | case4 a b c rest ih =>
    have ha : a < 256 := h a (by simp)
    have hb : b < 256 := h b (by simp)
    have hc : c < 256 := h c (by simp)
    have hrest : ∀ x ∈ rest, x < 256 := fun x hx => h x (by simp [hx])
    simp only [base64Encode, base64Decode]
    rw [b64Index_b64Char _ (by omega), b64Index_b64Char _ (by omega),
      b64Index_b64Char _ (by omega), b64Index_b64Char _ (by omega)]
    have hne3 := b64Char_ne_pad (b % 16 * 4 + c / 64) (by omega)
    have hne4 := b64Char_ne_pad (c % 64) (by omega)
    rw [ih hrest]
    simp [hne3, hne4]
    omega

theorem writeVarint_lt (n : Nat) : ∀ b ∈ writeVarint n, b < 256 := by
  induction n using Nat.strong_induction_on with
  | _ n ih =>
    intro b hb
    rw [writeVarint_eq] at hb
    by_cases h : n < 128
    · rw [if_pos h] at hb
      have hb2 : b = n := by simpa using hb
      omega
    · rw [if_neg h] at hb
      rcases List.mem_cons.mp hb with rfl | hb2
      · omega
      · exact ih (n / 128) (by omega) b hb2

theorem bytesOk_lt {s : RStr} (h : bytesOk s = true) : ∀ b ∈ s, b < 256 := by
  simpa [bytesOk, List.all_eq_true] using h

theorem encodeAirport_lt {a : Airport} (ha : bytesOk a.airport = true) :
    ∀ b ∈ encodeAirport a, b < 256 := by
  intro b hb
  unfold encodeAirport at hb
  by_cases he : a.airport = []
  · simp [he] at hb
  · rw [if_neg he] at hb
    simp only [List.append_assoc, List.mem_append] at hb
    rcases hb with hb | hb | hb
    · exact writeVarint_lt _ _ hb
    · exact writeVarint_lt _ _ hb
    · exact bytesOk_lt ha b hb

theorem encodeDateField_lt {d : RStr} (hd : bytesOk d = true) :
    ∀ b ∈ encodeDateField d, b < 256 := by
  intro b hb
  unfold encodeDateField at hb
  by_cases he : d = []
  · simp [he] at hb
  · rw [if_neg he] at hb
    simp only [List.append_assoc, List.mem_append] at hb
    rcases hb with hb | hb | hb
    · exact writeVarint_lt _ _ hb
    · exact writeVarint_lt _ _ hb
    · exact bytesOk_lt hd b hb

theorem encodeFromField_lt {o : Option Airport} (ho : optAirportBytesOk o = true) :
    ∀ b ∈ encodeFromField o, b < 256 := by
  intro b hb
  match o, ho with
  | none, _ => simp [encodeFromField] at hb
  | some a, ho =>
    unfold encodeFromField at hb
    simp only [List.append_assoc, List.mem_append] at hb
    rcases hb with hb | hb | hb
    · exact writeVarint_lt _ _ hb
    · exact writeVarint_lt _ _ hb
    · exact encodeAirport_lt ho b hb

theorem encodeToField_lt {o : Option Airport} (ho : optAirportBytesOk o = true) :
    ∀ b ∈ encodeToField o, b < 256 := by
  intro b hb
  match o, ho with
  | none, _ => simp [encodeToField] at hb
  | some a, ho =>
    unfold encodeToField at hb
    simp only [List.append_assoc, List.mem_append] at hb
    rcases hb with hb | hb | hb
    · exact writeVarint_lt _ _ hb
    · exact writeVarint_lt _ _ hb
    · exact encodeAirport_lt ho b hb

theorem encodeStopsField_lt (i : Int) : ∀ b ∈ encodeStopsField i, b < 256 := by
  intro b hb
  unfold encodeStopsField at hb
  by_cases he : i = 0
  · simp [he] at hb
  · rw [if_neg he] at hb
    rcases List.mem_append.mp hb with hb | hb
    · exact writeVarint_lt _ _ hb
    · exact writeVarint_lt _ _ hb

theorem encodeFlightData_lt {fd : FlightData} (hf : flightDataBytesOk fd = true) :
    ∀ b ∈ encodeFlightData fd, b < 256 := by
  unfold flightDataBytesOk at hf
  simp only [Bool.and_eq_true] at hf
  obtain ⟨⟨hd, hfrom⟩, hto⟩ := hf
  intro b hb
  unfold encodeFlightData at hb
  simp only [List.append_assoc, List.mem_append] at hb
  rcases hb with hb | hb | hb | hb
  · exact encodeDateField_lt hd b hb
  · exact encodeFromField_lt hfrom b hb
  · exact encodeToField_lt hto b hb
  · exact encodeStopsField_lt _ b hb

theorem encodeLegField_lt {fd : FlightData} (hf : flightDataBytesOk fd = true) :
    ∀ b ∈ encodeLegField fd, b < 256 := by
  intro b hb
  unfold encodeLegField at hb
  simp only [List.append_assoc, List.mem_append] at hb
  rcases hb with hb | hb | hb
  · exact writeVarint_lt _ _ hb
  · exact writeVarint_lt _ _ hb
  · exact encodeFlightData_lt hf b hb

theorem encodeSeatField_lt (s : Seat) : ∀ b ∈ encodeSeatField s, b < 256 := by
  intro b hb
  unfold encodeSeatField at hb
  by_cases he : s = .UNKNOWN_SEAT
  · simp [he] at hb
  · rw [if_neg he] at hb
    rcases List.mem_append.mp hb with hb | hb
    · exact writeVarint_lt _ _ hb
    · exact writeVarint_lt _ _ hb

theorem encodePassengersField_lt (ps : List Passenger) :
    ∀ b ∈ encodePassengersField ps, b < 256 := by
  intro b hb
  unfold encodePassengersField at hb
  by_cases he : ps = []
  · simp [he] at hb
  · rw [if_neg he] at hb
    simp only [List.append_assoc, List.mem_append] at hb
    rcases hb with hb | hb | hb
    · exact writeVarint_lt _ _ hb
    · exact writeVarint_lt _ _ hb
    · simp only [List.mem_flatten, List.mem_map] at hb
      obtain ⟨l2, ⟨p, _, rfl⟩, hb2⟩ := hb
      exact writeVarint_lt _ _ hb2

theorem encodeTripField_lt (t : Trip) : ∀ b ∈ encodeTripField t, b < 256 := by
  intro b hb
  unfold encodeTripField at hb
  by_cases he : t = .UNKNOWN_TRIP
  · simp [he] at hb
  · rw [if_neg he] at hb
    rcases List.mem_append.mp hb with hb | hb
    · exact writeVarint_lt _ _ hb
    · exact writeVarint_lt _ _ hb

/-- Every byte the encoder emits is a byte value. -/
theorem encodeInfo_lt {q : Info} (hq : infoBytesOk q = true) :
    ∀ b ∈ encodeInfo q, b < 256 := by
  unfold infoBytesOk at hq
  intro b hb
  unfold encodeInfo at hb
  simp only [List.append_assoc, List.mem_append] at hb
  rcases hb with hb | hb | hb | hb
  · simp only [List.mem_flatten, List.mem_map] at hb
    obtain ⟨l2, ⟨fd, hfd, rfl⟩, hb2⟩ := hb
    exact encodeLegField_lt (List.all_eq_true.mp hq fd hfd) b hb2
  · exact encodeSeatField_lt _ b hb
  · exact encodePassengersField_lt _ b hb
  · exact encodeTripField_lt _ b hb

/-! ## Builder lemmas -/

/-- Inverting a successful `make_tfs`: each input section was validated and
the bytes are the codec's encoding of the assembled query. -/
theorem makeTfs_ok_inv {legs : List (List (String × RStr))} {sd : String} {pd : List String}
    {td : String} {r : TfsResult} (h : makeTfs legs sd pd td = .ok r) :
    processFlights legs = .ok r.data.data
    ∧ processPassengers pd = .ok r.data.passengers
    ∧ parseSeat sd = .ok r.data.seat
    ∧ parseTrip td = .ok r.data.trip
    ∧ r.bytes = encodeInfo r.data := by
  unfold makeTfs at h
  cases hPF : processFlights legs with
  | error e => rw [hPF] at h; simp at h
  | ok flights =>
    rw [hPF] at h
    cases hPP : processPassengers pd with
    | error e => rw [hPP] at h; simp at h
    | ok pax =>
      rw [hPP] at h
      cases hPS : parseSeat sd with
      | error e => rw [hPS] at h; simp at h
      | ok seat =>
        rw [hPS] at h
        cases hPT : parseTrip td with
        | error e => rw [hPT] at h; simp at h
        | ok trip =>
          rw [hPT] at h
          simp only [Except.ok.injEq] at h
          subst h
          exact ⟨rfl, rfl, rfl, rfl, rfl⟩

/-- A successful legs pass processes the input legs one-to-one, in order. -/
theorem processFlights_ok_forall2 {legs : List (List (String × RStr))} {l : List FlightData}
    (h : processFlights legs = .ok l) :
    List.Forall₂ (fun leg fd => processFlight leg FlightData.default = .ok fd) legs l := by
  induction legs generalizing l with
  | nil =>
    unfold processFlights at h
    simp only [Except.ok.injEq] at h
    subst h
    exact .nil
  | cons f rest ih =>
    unfold processFlights at h
    cases hPF : processFlight f FlightData.default with
    | error e => rw [hPF] at h; simp at h
    | ok fd =>
      rw [hPF] at h
      cases hPR : processFlights rest with
      | error e => rw [hPR] at h; simp at h
      | ok others =>
        rw [hPR] at h
        simp only [Except.ok.injEq] at h
        subst h
        exact .cons hPF (ih hPR)

/-- A successful passenger pass maps the input names one-to-one, in order. -/
theorem processPassengers_ok_forall2 {pd : List String} {l : List Passenger}
    (h : processPassengers pd = .ok l) :
    List.Forall₂ (fun s p => parsePassenger s = .ok p) pd l := by
  induction pd generalizing l with
  | nil =>
    unfold processPassengers at h
    simp only [Except.ok.injEq] at h
    subst h
    exact .nil
  | cons s rest ih =>
    unfold processPassengers at h
    cases hPP : parsePassenger s with
    | error e => rw [hPP] at h; simp at h
    | ok p =>
      rw [hPP] at h
      cases hPR : processPassengers rest with
      | error e => rw [hPR] at h; simp at h
      | ok others =>
        rw [hPR] at h
        simp only [Except.ok.injEq] at h
        subst h
        exact .cons hPP (ih hPR)

/-- `processFlight` preserves the byte-range invariant. -/
theorem processFlight_ok_bytes {leg : List (String × RStr)} {acc fd : FlightData}
    (hleg : ∀ kv ∈ leg, bytesOk kv.2 = true)
    (hacc : flightDataBytesOk acc = true) (h : processFlight leg acc = .ok fd) :
    flightDataBytesOk fd = true := by
  induction leg generalizing acc with
  | nil =>
    unfold processFlight at h
    simp only [Except.ok.injEq] at h
    subst h
    exact hacc
  | cons kv rest ih =>
    obtain ⟨k, v⟩ := kv
    have hv : bytesOk v = true := hleg (k, v) (by simp)
    have hrest : ∀ kv ∈ rest, bytesOk kv.2 = true := fun kv hkv => hleg kv (by simp [hkv])
    unfold processFlight at h
    unfold flightDataBytesOk at hacc
    simp only [Bool.and_eq_true] at hacc
    by_cases h1 : k = "date"
    · rw [if_pos h1] at h
      refine ih hrest ?_ h
      unfold flightDataBytesOk
      simp only [Bool.and_eq_true]
      exact ⟨⟨hv, hacc.1.2⟩, hacc.2⟩
    · rw [if_neg h1] at h
      by_cases h2 : k = "from"
      · rw [if_pos h2] at h
        refine ih hrest ?_ h
        unfold flightDataBytesOk
        simp only [Bool.and_eq_true]
        exact ⟨⟨hacc.1.1, hv⟩, hacc.2⟩
      · rw [if_neg h2] at h
        by_cases h3 : k = "to"
        · rw [if_pos h3] at h
          refine ih hrest ?_ h
          unfold flightDataBytesOk
          simp only [Bool.and_eq_true]
          exact ⟨⟨hacc.1.1, hacc.1.2⟩, hv⟩
        · rw [if_neg h3] at h
          simp at h

/-- `processFlights` preserves the byte-range invariant. -/
theorem processFlights_ok_bytes {legs : List (List (String × RStr))} {l : List FlightData}
    (hlegs : ∀ leg ∈ legs, ∀ kv ∈ leg, bytesOk kv.2 = true)
    (h : processFlights legs = .ok l) : l.all flightDataBytesOk = true := by
  induction legs generalizing l with
  | nil =>
    unfold processFlights at h
    simp only [Except.ok.injEq] at h
    subst h
    rfl
  | cons f rest ih =>
    unfold processFlights at h
    cases hPF : processFlight f FlightData.default with
    | error e => rw [hPF] at h; simp at h
    | ok fd =>
      rw [hPF] at h
      cases hPR : processFlights rest with
      | error e => rw [hPR] at h; simp at h
      | ok others =>
        rw [hPR] at h
        simp only [Except.ok.injEq] at h
        subst h
        have h1 : flightDataBytesOk fd = true :=
          processFlight_ok_bytes (hlegs f (by simp)) (by rfl) hPF
        have h2 : others.all flightDataBytesOk = true :=
          ih (fun leg hl kv hkv => hlegs leg (by simp [hl]) kv hkv) hPR
        simp [h1, h2]

/-- Valid keys make the leg pass succeed. -/
theorem processFlight_ok_of_keys {leg : List (String × RStr)}
    (hk : leg.all (fun kv => kv.1 = "date" || kv.1 = "from" || kv.1 = "to") = true) :
    ∀ acc, ∃ fd, processFlight leg acc = .ok fd := by
  induction leg with
  | nil => exact fun acc => ⟨acc, rfl⟩
  | cons kv rest ih =>
    intro acc
    obtain ⟨k, v⟩ := kv
    simp only [List.all_cons, Bool.and_eq_true, Bool.or_eq_true, decide_eq_true_eq] at hk
    obtain ⟨hkey, hrest⟩ := hk
    have ih2 := ih (by simpa [List.all_eq_true] using fun kv hkv =>
      (List.all_eq_true.mp hrest) kv hkv)
    unfold processFlight
    rcases hkey with (hkey | hkey) | hkey <;> subst hkey <;> simp <;> apply ih2

/-- Valid keys make the whole legs pass succeed. -/
theorem processFlights_ok_of_keys {legs : List (List (String × RStr))}
    (hk : legKeysOk legs = true) : ∃ l, processFlights legs = .ok l := by
  unfold legKeysOk at hk
  induction legs with
  | nil => exact ⟨[], rfl⟩
  | cons f rest ih =>
    simp only [List.all_cons, Bool.and_eq_true] at hk
    obtain ⟨hf, hrest⟩ := hk
    obtain ⟨fd, hfd⟩ := processFlight_ok_of_keys hf FlightData.default
    obtain ⟨l, hl⟩ := ih hrest
    refine ⟨fd :: l, ?_⟩
    unfold processFlights
    rw [hfd, hl]

/-- Valid names make the passenger pass succeed. -/
theorem processPassengers_ok_of_names {pd : List String} (hp : paxNamesOk pd = true) :
    ∃ l, processPassengers pd = .ok l := by
  unfold paxNamesOk at hp
  induction pd with
  | nil => exact ⟨[], rfl⟩
  | cons s rest ih =>
    simp only [List.all_cons, Bool.and_eq_true, Bool.or_eq_true, decide_eq_true_eq] at hp
    obtain ⟨hs, hrest⟩ := hp
    obtain ⟨l, hl⟩ := ih (by simpa [paxNamesOk] using hrest)
    have : ∃ p, parsePassenger s = .ok p := by
      unfold parsePassenger
      rcases hs with ((hs | hs) | hs) | hs <;> subst hs <;> simp
    obtain ⟨p, hp2⟩ := this
    refine ⟨p :: l, ?_⟩
    unfold processPassengers
    rw [hp2, hl]

/-- A valid seat name parses. -/
theorem parseSeat_ok_of_name {sd : String} (hs : seatNameOk sd = true) :
    ∃ s, parseSeat sd = .ok s := by
  unfold seatNameOk at hs
  simp only [Bool.or_eq_true, decide_eq_true_eq] at hs
  unfold parseSeat
  rcases hs with ((hs | hs) | hs) | hs <;> subst hs <;> simp

/-- A valid trip name parses. -/
theorem parseTrip_ok_of_name {td : String} (ht : tripNameOk td = true) :
    ∃ t, parseTrip td = .ok t := by
  unfold tripNameOk at ht
  simp only [Bool.or_eq_true, decide_eq_true_eq] at ht
  unfold parseTrip
  rcases ht with (ht | ht) | ht <;> subst ht <;> simp

/-- With all names and keys in the closed tables, the whole build succeeds:
serialization itself cannot fail. -/
theorem makeTfs_ok_of_valid {legs : List (List (String × RStr))} {sd : String}
    {pd : List String} {td : String} (hk : legKeysOk legs = true)
    (hs : seatNameOk sd = true) (hp : paxNamesOk pd = true) (ht : tripNameOk td = true) :
    ∃ r, makeTfs legs sd pd td = .ok r := by
  obtain ⟨l, hl⟩ := processFlights_ok_of_keys hk
  obtain ⟨ps, hps⟩ := processPassengers_ok_of_names hp
  obtain ⟨s, hs2⟩ := parseSeat_ok_of_name hs
  obtain ⟨t, ht2⟩ := parseTrip_ok_of_name ht
  refine ⟨⟨⟨l, s, ps, t⟩, encodeInfo ⟨l, s, ps, t⟩⟩, ?_⟩
  unfold makeTfs
  rw [hl, hps, hs2, ht2]

/-- An out-of-table key at the head of a leg mapping fails the leg. -/
theorem processFlight_badKey {k : String} (hk : ¬(k = "date" ∨ k = "from" ∨ k = "to"))
    (v : RStr) (leg : List (String × RStr)) (acc : FlightData) :
    processFlight ((k, v) :: leg) acc = .error (.keyError k) := by
  push_neg at hk
  unfold processFlight
  simp [hk.1, hk.2.1, hk.2.2]

/-- An out-of-table seat name fails with the message naming it. -/
theorem parseSeat_bad {s : String}
    (hs : ¬(s = "economy" ∨ s = "premium_economy" ∨ s = "business" ∨ s = "first")) :
    parseSeat s = .error (.valueError ("Unknown seat name " ++ s)) := by
  push_neg at hs
  unfold parseSeat
  simp [hs.1, hs.2.1, hs.2.2.1, hs.2.2.2]

/-- An out-of-table passenger name fails with the message naming it. -/
theorem parsePassenger_bad {s : String}
    (hs : ¬(s = "adult" ∨ s = "child" ∨ s = "infant_in_seat" ∨ s = "infant_on_lap")) :
    parsePassenger s = .error (.valueError ("Unknown passenger name " ++ s)) := by
  push_neg at hs
  unfold parsePassenger
  simp [hs.1, hs.2.1, hs.2.2.1, hs.2.2.2]

/-- An out-of-table trip name fails with the message naming it. -/
theorem parseTrip_bad {s : String}
    (hs : ¬(s = "round_trip" ∨ s = "one_way" ∨ s = "multi_city")) :
    parseTrip s = .error (.valueError ("Unknown trip name " ++ s)) := by
  push_neg at hs
  unfold parseTrip
  simp [hs.1, hs.2.1, hs.2.2]

/-! ## `get_size` consistency -/

theorem encodeLegField_length (fd : FlightData) :
    (encodeLegField fd).length = 1 + sizeofLen fd.size := by
  unfold encodeLegField sizeofLen
  rw [← encodeFlightData_length fd]
  simp [writeVarint_small (show (26 : Nat) < 128 by omega), sizeofVarint]
  omega

/-- `Info::get_size` equals the emitted byte count. -/
theorem encodeInfo_length (q : Info) : (encodeInfo q).length = q.size := by
  obtain ⟨D, s, p, t⟩ := q
  unfold encodeInfo Info.size
  simp only [List.length_append]
  have hlegs : ((D.map encodeLegField).flatten).length
      = (D.map (fun fd => 1 + sizeofLen fd.size)).sum := by
    induction D with
    | nil => rfl
    | cons fd rest ih => simp [ih, encodeLegField_length]
  have hseat : (encodeSeatField s).length
      = if s = .UNKNOWN_SEAT then 0 else 1 + sizeofVarint s.toNat := by
    unfold encodeSeatField
    by_cases hs : s = .UNKNOWN_SEAT
    · simp [hs]
    · simp [hs, writeVarint_small (show (72 : Nat) < 128 by omega), sizeofVarint]
      omega
  have hpax : (encodePassengersField p).length
      = if p = [] then 0 else 1 + sizeofLen ((p.map (fun s => sizeofVarint s.toNat)).sum) := by
    unfold encodePassengersField
    by_cases hp : p = []
    · simp [hp]
    · rw [if_neg hp, if_neg hp]
      simp only [List.length_append]
      rw [paxPayload_length]
      simp [writeVarint_small (show (66 : Nat) < 128 by omega), sizeofLen, sizeofVarint]
      omega
  have htrip : (encodeTripField t).length
      = if t = .UNKNOWN_TRIP then 0 else 2 + sizeofVarint t.toNat := by
    unfold encodeTripField
    by_cases ht : t = .UNKNOWN_TRIP
    · simp [ht]
    · simp [ht, writeVarint_152, sizeofVarint]
      omega
  simp only at hlegs hseat hpax htrip ⊢
  omega

/-! ## Claims -/

/-- C1: for every SearchQuery (`Info`) value whose sub-fields are well-formed
(strings valid UTF-8 as Rust `String`s are, `max_stops` in `i32` range),
decoding the bytes the encoder produces yields a value equal to the
original, for every variant of `Seat`, `Trip` and `Passenger` and any leg
count: `decode (encode q) = ok q`. -/
theorem C1_decode_encode_roundtrip (q : Info) (h : wfInfo q = true) :
    infoFromReader (encodeInfo q) = .ok q :=
  info_roundtrip h

theorem C1_decode_encode_roundtrip_witness :
    infoFromReader (encodeInfo
      ⟨[⟨[50, 48, 50, 52, 45, 48, 49, 45, 48, 49], some ⟨[74, 70, 75]⟩, some ⟨[76, 65, 88]⟩, 0⟩,
        ⟨[50, 48, 50, 52, 45, 48, 50, 45, 48, 50], none, none, 3⟩],
       .FIRST, [.ADULT, .CHILD, .INFANT_IN_SEAT, .INFANT_ON_LAP, .UNKNOWN_PASSENGER],
       .MULTI_CITY⟩)
    = .ok
      ⟨[⟨[50, 48, 50, 52, 45, 48, 49, 45, 48, 49], some ⟨[74, 70, 75]⟩, some ⟨[76, 65, 88]⟩, 0⟩,
        ⟨[50, 48, 50, 52, 45, 48, 50, 45, 48, 50], none, none, 3⟩],
       .FIRST, [.ADULT, .CHILD, .INFANT_IN_SEAT, .INFANT_ON_LAP, .UNKNOWN_PASSENGER],
       .MULTI_CITY⟩ :=
  C1_decode_encode_roundtrip _ (by decide)

/-- C2: every record the encoder emits uses exactly the externally-mandated
tag `(field_number <<< 3) ||| wire_type`: Airport code is field 2
length-delimited (18); FlightLeg date field 2 (18), origin field 13 (106),
destination field 14 (114), max_stops field 5 varint (40); SearchQuery legs
field 3 (26, one record per leg), seat field 9 varint (72), passengers
field 8 packed length-delimited (66), trip field 19 varint (152). -/
theorem C2_wire_tags :
    (∀ a : Airport, encodeAirport a = if a.airport = [] then []
      else writeVarint ((2 <<< 3) ||| 2) ++ writeVarint a.airport.length ++ a.airport)
  ∧ (∀ d : RStr, encodeDateField d = if d = [] then []
      else writeVarint ((2 <<< 3) ||| 2) ++ writeVarint d.length ++ d)
  ∧ (∀ a : Airport, encodeFromField (some a)
      = writeVarint ((13 <<< 3) ||| 2) ++ writeVarint a.size ++ encodeAirport a)
  ∧ (∀ a : Airport, encodeToField (some a)
      = writeVarint ((14 <<< 3) ||| 2) ++ writeVarint a.size ++ encodeAirport a)
  ∧ (∀ i : Int, encodeStopsField i = if i = 0 then []
      else writeVarint ((5 <<< 3) ||| 0) ++ writeVarint (u64OfI32 i))
  ∧ (∀ fd : FlightData, encodeLegField fd
      = writeVarint ((3 <<< 3) ||| 2) ++ writeVarint fd.size ++ encodeFlightData fd)
  ∧ (∀ s : Seat, encodeSeatField s = if s = .UNKNOWN_SEAT then []
      else writeVarint ((9 <<< 3) ||| 0) ++ writeVarint s.toNat)
  ∧ (∀ ps : List Passenger, encodePassengersField ps = if ps = [] then []
      else writeVarint ((8 <<< 3) ||| 2)
        ++ writeVarint ((ps.map (fun s => sizeofVarint s.toNat)).sum)
        ++ (ps.map (fun p => writeVarint p.toNat)).flatten)
  ∧ (∀ t : Trip, encodeTripField t = if t = .UNKNOWN_TRIP then []
      else writeVarint ((19 <<< 3) ||| 0) ++ writeVarint t.toNat)
  ∧ (∀ q : Info, encodeInfo q = (q.data.map encodeLegField).flatten
      ++ encodeSeatField q.seat ++ encodePassengersField q.passengers
      ++ encodeTripField q.trip) := by
  have e18 : ((2 <<< 3) ||| 2 : Nat) = 18 := by decide
  have e106 : ((13 <<< 3) ||| 2 : Nat) = 106 := by decide
  have e114 : ((14 <<< 3) ||| 2 : Nat) = 114 := by decide
  have e40 : ((5 <<< 3) ||| 0 : Nat) = 40 := by decide
  have e26 : ((3 <<< 3) ||| 2 : Nat) = 26 := by decide
  have e72 : ((9 <<< 3) ||| 0 : Nat) = 72 := by decide
  have e66 : ((8 <<< 3) ||| 2 : Nat) = 66 := by decide
  have e152 : ((19 <<< 3) ||| 0 : Nat) = 152 := by decide
  refine ⟨fun a => ?_, fun d => ?_, fun a => ?_, fun a => ?_, fun i => ?_, fun fd => ?_,
    fun s => ?_, fun ps => ?_, fun t => ?_, fun q => ?_⟩ <;>
    (try simp only [e18, e106, e114, e40, e26, e72, e66, e152]) <;> rfl

/-- C3: a field at its elision default is never written: an empty Airport
code or date, an absent origin/destination, `max_stops = 0`, seat/trip at
the default variant and an empty passenger list each contribute zero bytes;
a SearchQuery with all three of seat, passengers and trip at default
serializes to the leg records alone. -/
theorem C3_default_elision :
    encodeAirport ⟨[]⟩ = []
  ∧ encodeDateField [] = []
  ∧ encodeFromField none = []
  ∧ encodeToField none = []
  ∧ encodeStopsField 0 = []
  ∧ encodeSeatField .UNKNOWN_SEAT = []
  ∧ encodePassengersField [] = []
  ∧ encodeTripField .UNKNOWN_TRIP = []
  ∧ encodeFlightData ⟨[], none, none, 0⟩ = []
  ∧ (∀ legs : List FlightData,
      encodeInfo ⟨legs, .UNKNOWN_SEAT, [], .UNKNOWN_TRIP⟩
        = (legs.map encodeLegField).flatten) := by
  refine ⟨rfl, rfl, rfl, rfl, rfl, rfl, rfl, rfl, rfl, fun legs => ?_⟩
  unfold encodeInfo
  simp [encodeSeatField, encodePassengersField, encodeTripField]

/-- C4: the builder fails the whole build: an UnknownFieldName (`keyError`)
names any key outside `{date, from, to}`, and an UnknownEnumValue
(`valueError`) names any seat/trip/passenger string outside its closed set;
matching is case-sensitive and exact, so seat `"Economy"` and key
`"origin"` are rejected. -/
theorem C4_builder_rejection :
    (∀ (k : String) (v : RStr) (leg : List (String × RStr))
        (legs : List (List (String × RStr))) (sd : String) (pd : List String) (td : String),
        ¬(k = "date" ∨ k = "from" ∨ k = "to") →
        makeTfs (((k, v) :: leg) :: legs) sd pd td = .error (.keyError k))
  ∧ (∀ sd td : String,
      ¬(sd = "economy" ∨ sd = "premium_economy" ∨ sd = "business" ∨ sd = "first") →
      makeTfs [[("date", [50, 48, 50, 52, 45, 48, 49, 45, 48, 49]),
                ("from", [74, 70, 75]), ("to", [76, 65, 88])]] sd ["adult"] td
        = .error (.valueError ("Unknown seat name " ++ sd)))
  ∧ (∀ (pn : String) (pd' : List String) (sd td : String),
      ¬(pn = "adult" ∨ pn = "child" ∨ pn = "infant_in_seat" ∨ pn = "infant_on_lap") →
      makeTfs [[("date", [50, 48, 50, 52, 45, 48, 49, 45, 48, 49]),
                ("from", [74, 70, 75]), ("to", [76, 65, 88])]] sd (pn :: pd') td
        = .error (.valueError ("Unknown passenger name " ++ pn)))
  ∧ (∀ tn : String, ¬(tn = "round_trip" ∨ tn = "one_way" ∨ tn = "multi_city") →
      makeTfs [[("date", [50, 48, 50, 52, 45, 48, 49, 45, 48, 49]),
                ("from", [74, 70, 75]), ("to", [76, 65, 88])]] "economy" ["adult"] tn
        = .error (.valueError ("Unknown trip name " ++ tn)))
  ∧ makeTfs [[("date", [50, 48, 50, 52, 45, 48, 49, 45, 48, 49]),
              ("from", [74, 70, 75]), ("to", [76, 65, 88])]] "Economy" ["adult"] "one_way"
      = .error (.valueError "Unknown seat name Economy")
  ∧ makeTfs [[("date", [50, 48, 50, 52, 45, 48, 49, 45, 48, 49]),
              ("origin", [74, 70, 75]), ("to", [76, 65, 88])]] "economy" ["adult"] "one_way"
      = .error (.keyError "origin") := by
  refine ⟨?_, ?_, ?_, ?_, by decide, by decide⟩
  · intro k v leg legs sd pd td hk
    simp only [makeTfs, processFlights, processFlight_badKey hk]
  · intro sd td h
    simp only [makeTfs,
      show processFlights [[("date", [50, 48, 50, 52, 45, 48, 49, 45, 48, 49]),
        ("from", [74, 70, 75]), ("to", [76, 65, 88])]]
        = .ok [⟨[50, 48, 50, 52, 45, 48, 49, 45, 48, 49],
               some ⟨[74, 70, 75]⟩, some ⟨[76, 65, 88]⟩, 0⟩] from rfl,
      show processPassengers ["adult"] = .ok [.ADULT] from rfl,
      parseSeat_bad h]
  · intro pn pd' sd td h
    simp only [makeTfs,
      show processFlights [[("date", [50, 48, 50, 52, 45, 48, 49, 45, 48, 49]),
        ("from", [74, 70, 75]), ("to", [76, 65, 88])]]
        = .ok [⟨[50, 48, 50, 52, 45, 48, 49, 45, 48, 49],
               some ⟨[74, 70, 75]⟩, some ⟨[76, 65, 88]⟩, 0⟩] from rfl,
      processPassengers, parsePassenger_bad h]
  · intro tn h
    simp only [makeTfs,
      show processFlights [[("date", [50, 48, 50, 52, 45, 48, 49, 45, 48, 49]),
        ("from", [74, 70, 75]), ("to", [76, 65, 88])]]
        = .ok [⟨[50, 48, 50, 52, 45, 48, 49, 45, 48, 49],
               some ⟨[74, 70, 75]⟩, some ⟨[76, 65, 88]⟩, 0⟩] from rfl,
      show processPassengers ["adult"] = .ok [.ADULT] from rfl,
      show parseSeat "economy" = .ok .ECONOMY from rfl,
      parseTrip_bad h]

theorem C4_builder_rejection_witness :
    makeTfs [[("origin", [74, 70, 75])]] "economy" ["adult"] "one_way"
      = .error (.keyError "origin")
    ∧ makeTfs [[("date", [50, 48, 50, 52, 45, 48, 49, 45, 48, 49]),
                ("from", [74, 70, 75]), ("to", [76, 65, 88])]] "Economy" ["adult"] "one_way"
      = .error (.valueError "Unknown seat name Economy") :=
  ⟨C4_builder_rejection.1 "origin" [74, 70, 75] [] [] "economy" ["adult"] "one_way" (by decide),
   C4_builder_rejection.2.2.2.2.1⟩

/-- C5: the passenger list `[adult, child, adult]` is emitted as exactly one
length-delimited record for field 8 (tag 66) whose payload is the three
concatenated one-byte varints 01 02 01; in general a non-empty passenger
list is packed into a single length-delimited record. -/
theorem C5_packed_passengers :
    encodeInfo ⟨[], .UNKNOWN_SEAT, [.ADULT, .CHILD, .ADULT], .UNKNOWN_TRIP⟩ = [66, 3, 1, 2, 1]
  ∧ encodePassengersField [.ADULT, .CHILD, .ADULT] = ((8 <<< 3) ||| 2) :: 3 :: [1, 2, 1]
  ∧ (∀ ps : List Passenger, ps ≠ [] → encodePassengersField ps
      = writeVarint 66
        ++ writeVarint (((ps.map (fun p => writeVarint p.toNat)).flatten).length)
        ++ (ps.map (fun p => writeVarint p.toNat)).flatten) := by
  refine ⟨by decide, by decide, fun ps hps => ?_⟩
  unfold encodePassengersField
  rw [if_neg hps, paxPayload_length]

theorem C5_packed_passengers_witness :
    encodePassengersField [.ADULT, .CHILD, .ADULT]
      = writeVarint 66
        ++ writeVarint ((([Passenger.ADULT, .CHILD, .ADULT].map
            (fun p => writeVarint p.toNat)).flatten).length)
        ++ ([Passenger.ADULT, .CHILD, .ADULT].map (fun p => writeVarint p.toNat)).flatten :=
  C5_packed_passengers.2.2 _ (by decide)

/-- C6: decoding tolerates unknown content: a record with an unknown field
number (wire type 0 or 2) is skipped and the following known record is
still decoded; an enum wire integer outside the defined values decodes to
the enumeration's default variant. -/
theorem C6_unknown_tolerance :
    flightDataFromReader [56, 7, 18, 3, 97, 98, 99] = .ok ⟨[97, 98, 99], none, none, 0⟩
  ∧ flightDataFromReader [58, 2, 255, 254, 18, 1, 97] = .ok ⟨[97], none, none, 0⟩
  ∧ infoFromReader [72, 99] = .ok ⟨[], .UNKNOWN_SEAT, [], .UNKNOWN_TRIP⟩
  ∧ (∀ i : Int, i ≠ 0 → i ≠ 1 → i ≠ 2 → i ≠ 3 → i ≠ 4 → Seat.fromI32 i = .UNKNOWN_SEAT)
  ∧ (∀ i : Int, i ≠ 0 → i ≠ 1 → i ≠ 2 → i ≠ 3 → Trip.fromI32 i = .UNKNOWN_TRIP)
  ∧ (∀ i : Int, i ≠ 0 → i ≠ 1 → i ≠ 2 → i ≠ 3 → i ≠ 4 →
      Passenger.fromI32 i = .UNKNOWN_PASSENGER) := by
  refine ⟨by decide, by decide, by decide, fun i h0 h1 h2 h3 h4 => ?_,
    fun i h0 h1 h2 h3 => ?_, fun i h0 h1 h2 h3 h4 => ?_⟩ <;>
    simp [Seat.fromI32, Trip.fromI32, Passenger.fromI32, h0, h1, h2, h3, *]

theorem C6_unknown_tolerance_witness :
    Seat.fromI32 99 = .UNKNOWN_SEAT
    ∧ Trip.fromI32 (-7) = .UNKNOWN_TRIP
    ∧ Passenger.fromI32 5 = .UNKNOWN_PASSENGER :=
  ⟨C6_unknown_tolerance.2.2.2.1 99 (by decide) (by decide) (by decide) (by decide) (by decide),
   C6_unknown_tolerance.2.2.2.2.1 (-7) (by decide) (by decide) (by decide) (by decide),
   C6_unknown_tolerance.2.2.2.2.2 5 (by decide) (by decide) (by decide) (by decide) (by decide)⟩

/-- C7: for every EncodedQuery produced by `make_tfs` (inputs being genuine
byte strings, as Rust `String`s are), the textual rendering is standard
base64 of the byte buffer and standard base64 decoding recovers exactly the
bytes. -/
theorem C7_base64_roundtrip (legs : List (List (String × RStr))) (sd : String)
    (pd : List String) (td : String) (r : TfsResult)
    (h : makeTfs legs sd pd td = .ok r)
    (hb : ∀ leg ∈ legs, ∀ kv ∈ leg, bytesOk kv.2 = true) :
    base64Decode (tfsBase64 r) = some r.bytes := by
  obtain ⟨hPF, _, _, _, hbytes⟩ := makeTfs_ok_inv h
  have hok : infoBytesOk r.data = true := processFlights_ok_bytes hb hPF
  unfold tfsBase64
  rw [hbytes]
  exact base64_roundtrip _ (encodeInfo_lt hok)

theorem C7_base64_roundtrip_witness :
    base64Decode (tfsBase64
      ⟨⟨[⟨[], some ⟨[74, 70, 75]⟩, none, 0⟩], .ECONOMY, [.ADULT], .ONE_WAY⟩,
       [26, 7, 106, 5, 18, 3, 74, 70, 75, 72, 1, 66, 1, 1, 152, 1, 2]⟩)
    = some [26, 7, 106, 5, 18, 3, 74, 70, 75, 72, 1, 66, 1, 1, 152, 1, 2] :=
  C7_base64_roundtrip [[("from", [74, 70, 75])]] "economy" ["adult"] "one_way" _
    (by decide) (by decide)

/-- C8: order is preserved end to end: a successful build processes legs
and passenger names one-to-one in input order (`List.Forall₂`), and
decoding the encoding of legs A, B, C yields exactly A, B, C. -/
theorem C8_order_preservation :
    (∀ (legs : List (List (String × RStr))) (sd : String) (pd : List String)
       (td : String) (r : TfsResult), makeTfs legs sd pd td = .ok r →
       List.Forall₂ (fun leg fd => processFlight leg FlightData.default = .ok fd)
         legs r.data.data
       ∧ List.Forall₂ (fun s p => parsePassenger s = .ok p) pd r.data.passengers)
  ∧ (∀ A B C : FlightData, ∀ (s : Seat) (pax : List Passenger) (t : Trip),
      wfFlightData A = true → wfFlightData B = true → wfFlightData C = true →
      infoFromReader (encodeInfo ⟨[A, B, C], s, pax, t⟩) = .ok ⟨[A, B, C], s, pax, t⟩) := by
  constructor
  · intro legs sd pd td r h
    obtain ⟨hPF, hPP, _, _, _⟩ := makeTfs_ok_inv h
    exact ⟨processFlights_ok_forall2 hPF, processPassengers_ok_forall2 hPP⟩
  · intro A B C s pax t hA hB hC
    exact info_roundtrip (by simp [wfInfo, hA, hB, hC])

theorem C8_order_preservation_witness :
    infoFromReader (encodeInfo
      ⟨[⟨[65], none, none, 0⟩, ⟨[66], none, none, 0⟩, ⟨[67], none, none, 0⟩],
       .ECONOMY, [.ADULT], .ONE_WAY⟩)
    = .ok ⟨[⟨[65], none, none, 0⟩, ⟨[66], none, none, 0⟩, ⟨[67], none, none, 0⟩],
           .ECONOMY, [.ADULT], .ONE_WAY⟩ :=
  C8_order_preservation.2 _ _ _ _ _ _ (by decide) (by decide) (by decide)

/-- C9: decode fails with the MalformedInput class exactly at the three
malformations the spec names — a declared length exceeding the remaining
bytes, a varint past the buffer end, a claimed-UTF-8 text that is not valid
UTF-8 — and encoding never fails: any build whose names and keys pass the
closed tables succeeds, and `get_size` agrees with the emitted byte count,
so the serializer cannot fault. -/
theorem C9_error_conditions :
    infoFromReader [26, 5, 0] = .error .unexpectedEndOfBuffer
  ∧ infoFromReader [200] = .error .unexpectedEndOfBuffer
  ∧ infoFromReader [26, 3, 18, 1, 255] = .error .invalidUtf8
  ∧ (∀ (legs : List (List (String × RStr))) (sd : String) (pd : List String) (td : String),
      legKeysOk legs = true → seatNameOk sd = true → paxNamesOk pd = true →
      tripNameOk td = true → ∃ r, makeTfs legs sd pd td = .ok r)
  ∧ (∀ q : Info, (encodeInfo q).length = q.size) :=
  ⟨by decide, by decide, by decide,
   fun _ _ _ _ hk hs hp ht => makeTfs_ok_of_valid hk hs hp ht,
   encodeInfo_length⟩

theorem C9_error_conditions_witness :
    ∃ r, makeTfs [[("date", [50, 48])]] "economy" ["adult"] "one_way" = .ok r :=
  C9_error_conditions.2.2.2.1 _ _ _ _ (by decide) (by decide) (by decide) (by decide)

/-- C10: presence of the key, not its value, decides wire presence of an
airport: a leg supplying `from` with the empty string yields a present
origin holding an empty code, encoded as a length-zero nested record
(bytes `106, 0`), distinguishable on the wire and after decoding from a leg
omitting the key, which yields an absent airport and no record. -/
theorem C10_presence_vs_value :
    (∀ v : RStr, processFlight [("from", v)] FlightData.default = .ok ⟨[], some ⟨v⟩, none, 0⟩)
  ∧ makeTfs [[("from", [])]] "economy" ["adult"] "one_way"
      = .ok ⟨⟨[⟨[], some ⟨[]⟩, none, 0⟩], .ECONOMY, [.ADULT], .ONE_WAY⟩,
             [26, 2, 106, 0, 72, 1, 66, 1, 1, 152, 1, 2]⟩
  ∧ makeTfs [[]] "economy" ["adult"] "one_way"
      = .ok ⟨⟨[⟨[], none, none, 0⟩], .ECONOMY, [.ADULT], .ONE_WAY⟩,
             [26, 0, 72, 1, 66, 1, 1, 152, 1, 2]⟩
  ∧ encodeFromField (some ⟨[]⟩) = [106, 0]
  ∧ encodeFromField none = []
  ∧ flightDataFromReader [106, 0] = .ok ⟨[], some ⟨[]⟩, none, 0⟩
  ∧ flightDataFromReader [] = .ok ⟨[], none, none, 0⟩
  ∧ some (Airport.mk []) ≠ (none : Option Airport) := by
  refine ⟨fun v => ?_, by decide, by decide, by decide, rfl, by decide, by decide, by decide⟩
  rfl

end Flights
